import Mathlib

/-!
Verification of the arXiv crawler core (`src/services/core/core/crawlers/arxiv.py`)
against its natural-language specification.

The embedding models fetched HTML documents as abstract structures carrying the
fields the crawler's parsers actually read, and models the network as an oracle
assigning to every URL a per-trial fetch outcome. Observable effects (backoff
sleeps, loop iterations) are returned as explicit values.
-/

namespace OpenImpact

/-- Outcome of one HTTP GET attempt: a 200 response carrying a parsed body,
a response with a non-success status code, or a raised connection error. -/
inductive Attempt (α : Type) where
  | success (body : α)
  | badStatus
  | connError
deriving DecidableEq

/-- Errors the crawler can raise: a re-raised connection error after retry
exhaustion, the generic "Failed to get response" exception, and the attribute
errors raised when a structurally required tag is missing. -/
inductive CrawlError where
  | connErr
  | noSuccess
  | missingTitle
  | missingAbstract
deriving DecidableEq

deriving instance DecidableEq for Except

/-- Loop body of `ArxivBaseCrawler._make_request`: `trial` is the zero-based
attempt index, `remaining` the number of loop iterations left (including the
current one); `remaining = 0` means the `for trial in range(max_retries)` loop
has been exhausted, so the generic exception is raised. On a 200 response the
body is returned; on a non-success status the loop just continues; on a
connection error the error is re-raised if this is the final attempt
(`trial == max_retries - 1`), otherwise the crawler sleeps
`trial * retry_delay + retry_delay` seconds and retries. The second component
records the sleep durations in order. -/
def make_request_go {α : Type} (attempts : Nat → Attempt α) (retry_delay : Nat) :
    Nat → Nat → Except CrawlError α × List Nat
  | _, 0 => (.error .noSuccess, [])
  | trial, remaining + 1 =>
    match attempts trial with
    | .success body => (.ok body, [])
    | .badStatus => make_request_go attempts retry_delay (trial + 1) remaining
    | .connError =>
      if remaining = 0 then (.error .connErr, [])
      else
        let rest := make_request_go attempts retry_delay (trial + 1) remaining
        (rest.1, (trial * retry_delay + retry_delay) :: rest.2)

/-- `ArxivBaseCrawler._make_request`: attempt the request up to `max_retries`
times, starting at trial 0. Returns the fetch result together with the list of
backoff sleep durations performed. -/
def make_request {α : Type} (attempts : Nat → Attempt α) (max_retries retry_delay : Nat) :
    Except CrawlError α × List Nat :=
  make_request_go attempts retry_delay 0 max_retries

/-- C2: with `maxRetries = 3` and connection failures on all three attempts,
exactly two sleeps occur, of durations `d` and `2*d` in that order, and the
connection error from the final attempt is raised. -/
theorem make_request_three_conn_failures {α : Type} (d : Nat) (attempts : Nat → Attempt α)
    (h : ∀ i, i < 3 → attempts i = .connError) :
    make_request attempts 3 d = (.error .connErr, [d, 2 * d]) := by
  have h0 := h 0 (by omega)
  have h1 := h 1 (by omega)
  have h2 := h 2 (by omega)
  simp [make_request, make_request_go, h0, h1, h2, two_mul]

/-- Witness for C2 at the constant connection-failing oracle with `d = 15`. -/
theorem make_request_three_conn_failures_witness :
    make_request (fun _ => (Attempt.connError : Attempt Nat)) 3 15 =
      (.error .connErr, [15, 30]) := by
  have := make_request_three_conn_failures (α := Nat) 15 (fun _ => .connError)
    (fun i _ => rfl)
  simpa using this

/-- Auxiliary for C3: if every attempt from `trial` on (within the remaining
window) returns a non-success status without raising, the loop performs no
sleep and falls through to the generic failure. -/
theorem make_request_go_all_bad {α : Type} (attempts : Nat → Attempt α) (d : Nat) :
    ∀ remaining trial, (∀ i, trial ≤ i → i < trial + remaining → attempts i = .badStatus) →
      make_request_go attempts d trial remaining = (.error .noSuccess, []) := by
  intro remaining
  induction remaining with
  | zero => intro trial _; rfl
  | succ n ih =>
    intro trial h
    have htrial : attempts trial = .badStatus := h trial (Nat.le_refl _) (by omega)
    have hrest := ih (trial + 1) (fun i hle hlt => h i (by omega) (by omega))
    simp [make_request_go, htrial, hrest]

/-- C3: if every attempt completes without a connection-level exception but
none returns a success status, no backoff sleep occurs and the fetch fails
with the generic "no successful response" error, not a connection error. -/
theorem make_request_all_bad_status {α : Type} (m d : Nat) (attempts : Nat → Attempt α)
    (h : ∀ i, i < m → attempts i = .badStatus) :
    make_request attempts m d = (.error .noSuccess, []) := by
  unfold make_request
  exact make_request_go_all_bad attempts d m 0 (fun i _ hlt => h i (by omega))

/-- Witness for C3 at the constant bad-status oracle with three retries. -/
theorem make_request_all_bad_status_witness :
    make_request (fun _ => (Attempt.badStatus : Attempt Nat)) 3 15 =
      (.error .noSuccess, []) :=
  make_request_all_bad_status 3 15 (fun _ => .badStatus) (fun i _ => rfl)

/-- The separator `"arxiv.org/abs/"` used by `_normalize_url`, as a character
list. -/
def absSep : List Char :=
  ['a', 'r', 'x', 'i', 'v', '.', 'o', 'r', 'g', '/', 'a', 'b', 's', '/']

/-- The scheme part `"https://"` of the canonical URL, as a character list. -/
def schemeChars : List Char := ['h', 't', 't', 'p', 's', ':', '/', '/']

theorem absSep_ne_nil : absSep ≠ [] := by decide

/-- Leftmost occurrence of `sep` in a string (as Python's `str.find` /
the `in` operator use): returns the text before the occurrence and the text
after it, or `none` when `sep` does not occur. -/
def splitFirst (sep : List Char) : List Char → Option (List Char × List Char)
  | [] => none
  | c :: cs =>
    if sep.isPrefixOf (c :: cs) then some ([], (c :: cs).drop sep.length)
    else
      match splitFirst sep cs with
      | some pp => some (c :: pp.1, pp.2)
      | none => none

theorem splitFirst_length_lt (sep : List Char) (hsep : sep ≠ []) :
    ∀ (s : List Char) (pp : List Char × List Char),
      splitFirst sep s = some pp → pp.2.length < s.length := by
  intro s
  induction s with
  | nil => intro pp h; simp [splitFirst] at h
  | cons c cs ih =>
    intro pp h
    by_cases hp : sep.isPrefixOf (c :: cs)
    · simp [splitFirst, hp] at h
      subst h
      simp only [List.length_drop, List.length_cons]
      have hpos : 0 < sep.length := List.length_pos.mpr hsep
      omega
    · simp [splitFirst, hp] at h
      match hcs : splitFirst sep cs with
      | some pp' =>
        rw [hcs] at h
        have := ih pp' hcs
        simp at h
        rw [← h]
        simp only [List.length_cons]
        omega
      | none => rw [hcs] at h; simp at h

/-- Fueled worker for Python's `str.split(sep)` specialised to the separator
`"arxiv.org/abs/"`: repeatedly split off the text before the leftmost
occurrence. The fuel only needs to exceed the number of occurrences; each
found occurrence strictly shrinks the remaining text. -/
def splitOnAbsGo : Nat → List Char → List (List Char)
  | 0, s => [s]
  | fuel + 1, s =>
    match splitFirst absSep s with
    | none => [s]
    | some pp => pp.1 :: splitOnAbsGo fuel pp.2

/-- Python's `url.split("arxiv.org/abs/")` on the character level. -/
def splitOnAbs (s : List Char) : List (List Char) := splitOnAbsGo s.length s

theorem splitOnAbsGo_congr :
    ∀ (fuel₁ fuel₂ : Nat) (s : List Char), s.length ≤ fuel₁ → s.length ≤ fuel₂ →
      splitOnAbsGo fuel₁ s = splitOnAbsGo fuel₂ s := by
  intro fuel₁
  induction fuel₁ with
  | zero =>
    intro fuel₂ s h₁ h₂
    have hs : s = [] := List.length_eq_zero.mp (by omega)
    subst hs
    cases fuel₂ with
    | zero => rfl
    | succ n => simp [splitOnAbsGo, splitFirst]
  | succ n ih =>
    intro fuel₂ s h₁ h₂
    cases fuel₂ with
    | zero =>
      have hs : s = [] := List.length_eq_zero.mp (by omega)
      subst hs
      simp [splitOnAbsGo, splitFirst]
    | succ m =>
      simp only [splitOnAbsGo]
      cases hsp : splitFirst absSep s with
      | none => rfl
      | some pp =>
        have hlt := splitFirst_length_lt absSep absSep_ne_nil s pp hsp
        show pp.1 :: splitOnAbsGo n pp.2 = pp.1 :: splitOnAbsGo m pp.2
        rw [ih m pp.2 (by omega) (by omega)]

/-- Unfolding equation for `splitOnAbs`. -/
theorem splitOnAbs_eq (s : List Char) :
    splitOnAbs s =
      match splitFirst absSep s with
      | none => [s]
      | some pp => pp.1 :: splitOnAbs pp.2 := by
  cases s with
  | nil => rfl
  | cons c cs =>
    cases hsp : splitFirst absSep (c :: cs) with
    | none =>
      show splitOnAbsGo (c :: cs).length (c :: cs) = [c :: cs]
      simp only [List.length_cons, splitOnAbsGo, hsp]
    | some pp =>
      have hlt := splitFirst_length_lt absSep absSep_ne_nil (c :: cs) pp hsp
      simp only [List.length_cons] at hlt
      show splitOnAbsGo (c :: cs).length (c :: cs) = pp.1 :: splitOnAbs pp.2
      simp only [List.length_cons, splitOnAbsGo, hsp]
      show pp.1 :: splitOnAbsGo cs.length pp.2 = pp.1 :: splitOnAbs pp.2
      rw [splitOnAbs, splitOnAbsGo_congr cs.length pp.2.length pp.2 (by omega) (Nat.le_refl _)]

theorem splitOnAbs_ne_nil (s : List Char) : splitOnAbs s ≠ [] := by
  rw [splitOnAbs_eq]
  match splitFirst absSep s with
  | none => simp
  | some pp => simp

/-- The last chunk produced by the split contains no further occurrence of the
separator. -/
theorem splitFirst_getLastD_splitOnAbs :
    ∀ (n : Nat) (s : List Char), s.length ≤ n →
      splitFirst absSep ((splitOnAbs s).getLastD []) = none := by
  intro n
  induction n with
  | zero =>
    intro s h
    have hs : s = [] := List.length_eq_zero.mp (by omega)
    subst hs
    simp [splitOnAbs, splitOnAbsGo, splitFirst]
  | succ n ih =>
    intro s h
    rw [splitOnAbs_eq]
    cases hsp : splitFirst absSep s with
    | none => simpa using hsp
    | some pp =>
      have hlt := splitFirst_length_lt absSep absSep_ne_nil s pp hsp
      have hrec := ih pp.2 (by omega)
      have hne := splitOnAbs_ne_nil pp.2
      obtain ⟨q, qs, hso⟩ := List.exists_cons_of_ne_nil hne
      rw [hso] at hrec
      show splitFirst absSep ((pp.1 :: splitOnAbs pp.2).getLastD []) = none
      rw [hso]
      simp only [List.getLastD_cons] at hrec ⊢
      exact hrec

/-- Prepending a character different from `'a'` cannot create a leftmost
occurrence of the separator at position zero. -/
theorem splitFirst_cons_ne (c : Char) (cs : List Char) (hc : c ≠ 'a') :
    splitFirst absSep (c :: cs) =
      match splitFirst absSep cs with
      | some pp => some (c :: pp.1, pp.2)
      | none => none := by
  have hp : absSep.isPrefixOf (c :: cs) = false := by
    simp only [absSep, List.isPrefixOf]
    have : ('a' == c) = false := by
      simp only [beq_eq_false_iff_ne, ne_eq]
      exact fun h => hc h.symm
    simp [this]
  simp [splitFirst, hp]

/-- The leftmost occurrence of the separator in
`"https://" ++ "arxiv.org/abs/" ++ pid` sits right after the scheme. -/
theorem splitFirst_scheme (pid : List Char) :
    splitFirst absSep (schemeChars ++ absSep ++ pid) = some (schemeChars, pid) := by
  have hbase : splitFirst absSep (absSep ++ pid) = some ([], pid) := by
    have hp : absSep.isPrefixOf (absSep ++ pid) = true := by
      rw [List.isPrefixOf_iff_prefix]
      exact List.prefix_append _ _
    have hcons : absSep ++ pid =
        'a' :: (['r', 'x', 'i', 'v', '.', 'o', 'r', 'g', '/', 'a', 'b', 's', '/'] ++ pid) := rfl
    rw [hcons] at hp ⊢
    rw [splitFirst, if_pos hp]
    rw [← hcons, List.drop_left' (by rfl)]
  have h7 := splitFirst_cons_ne '/' (absSep ++ pid) (by decide)
  rw [hbase] at h7
  have h6 := splitFirst_cons_ne '/' ('/' :: (absSep ++ pid)) (by decide)
  rw [h7] at h6
  have h5 := splitFirst_cons_ne ':' ('/' :: '/' :: (absSep ++ pid)) (by decide)
  rw [h6] at h5
  have h4 := splitFirst_cons_ne 's' (':' :: '/' :: '/' :: (absSep ++ pid)) (by decide)
  rw [h5] at h4
  have h3 := splitFirst_cons_ne 'p' ('s' :: ':' :: '/' :: '/' :: (absSep ++ pid)) (by decide)
  rw [h4] at h3
  have h2 := splitFirst_cons_ne 't' ('p' :: 's' :: ':' :: '/' :: '/' :: (absSep ++ pid)) (by decide)
  rw [h3] at h2
  have h1 := splitFirst_cons_ne 't' ('t' :: 'p' :: 's' :: ':' :: '/' :: '/' :: (absSep ++ pid)) (by decide)
  rw [h2] at h1
  have h0 := splitFirst_cons_ne 'h' ('t' :: 't' :: 'p' :: 's' :: ':' :: '/' :: '/' :: (absSep ++ pid)) (by decide)
  rw [h1] at h0
  have hform : schemeChars ++ absSep ++ pid =
      'h' :: 't' :: 't' :: 'p' :: 's' :: ':' :: '/' :: '/' :: (absSep ++ pid) := rfl
  rw [hform, h0]
  rfl

theorem splitOnAbs_scheme (pid : List Char) (hp : splitFirst absSep pid = none) :
    splitOnAbs (schemeChars ++ absSep ++ pid) = [schemeChars, pid] := by
  rw [splitOnAbs_eq, splitFirst_scheme]
  show schemeChars :: splitOnAbs pid = [schemeChars, pid]
  rw [splitOnAbs_eq, hp]

/-- Python's `"arxiv.org/abs/" in url`. -/
def containsAbsPattern (url : String) : Bool := (splitFirst absSep url.data).isSome

/-- `ArxivPaperCrawler._normalize_url`: when the URL contains
`"arxiv.org/abs/"`, take the text after the last occurrence as the paper id
and rebuild the canonical `https://arxiv.org/abs/{id}` form; otherwise return
the URL unchanged. -/
def normalize_url (url : String) : String :=
  if containsAbsPattern url then
    String.mk (schemeChars ++ absSep ++ (splitOnAbs url.data).getLastD [])
  else url

/-- C6: on any URL matching the abstract-page pattern, `_normalize_url` is
idempotent. -/
theorem normalize_url_idempotent (url : String) (h : containsAbsPattern url = true) :
    normalize_url (normalize_url url) = normalize_url url := by
  have hlast := splitFirst_getLastD_splitOnAbs url.data.length url.data (Nat.le_refl _)
  have h1 : normalize_url url =
      String.mk (schemeChars ++ absSep ++ (splitOnAbs url.data).getLastD []) := by
    rw [normalize_url, if_pos h]
  rw [h1]
  have hdata : (String.mk (schemeChars ++ absSep ++ (splitOnAbs url.data).getLastD [])).data =
      schemeChars ++ absSep ++ (splitOnAbs url.data).getLastD [] := rfl
  have hcontains : containsAbsPattern
      (String.mk (schemeChars ++ absSep ++ (splitOnAbs url.data).getLastD [])) = true := by
    rw [containsAbsPattern, hdata, splitFirst_scheme]
    rfl
  rw [normalize_url, if_pos hcontains, hdata, splitOnAbs_scheme _ hlast]
  rfl

/-- Witness for C6 at a concrete abstract-page URL. -/
theorem normalize_url_idempotent_witness :
    containsAbsPattern "http://arxiv.org/abs/2501.01234" = true ∧
      normalize_url (normalize_url "http://arxiv.org/abs/2501.01234") =
        normalize_url "http://arxiv.org/abs/2501.01234" :=
  ⟨by decide, normalize_url_idempotent "http://arxiv.org/abs/2501.01234" (by decide)⟩

/-- Python's `str.strip()`: remove whitespace from both ends. -/
def pyStrip (s : String) : String :=
  String.mk (((s.data.dropWhile Char.isWhitespace).reverse.dropWhile Char.isWhitespace).reverse)

/-- Fueled worker for Python's `str.replace(pattern, replacement)`: replace
non-overlapping occurrences left to right. The fuel only needs to exceed the
number of occurrences; each found occurrence strictly shrinks the remaining
text when the pattern is non-empty. -/
def replaceGo (pattern replacement : List Char) : Nat → List Char → List Char
  | 0, s => s
  | fuel + 1, s =>
    match splitFirst pattern s with
    | none => s
    | some pp => pp.1 ++ replacement ++ replaceGo pattern replacement fuel pp.2

/-- Python's `str.replace(pattern, replacement)` for a non-empty pattern. -/
def pyReplace (s pattern replacement : String) : String :=
  String.mk (replaceGo pattern.data replacement.data s.data.length s.data)

/-- Python's `sep.join(parts)`. -/
def pyJoin (sep : String) (parts : List String) : String :=
  match parts with
  | [] => ""
  | p :: ps => ps.foldl (fun acc q => acc ++ sep ++ q) p

/-- Abstract model of a fetched arXiv abstract page, carrying exactly the
pieces of the document the crawler's parsers read: the text of the
`h1.title` element, the text of the `td.tablecell comments` cell, the text of
the `blockquote.abstract` element, and the `href` of the anchor whose visible
text is `"HTML (experimental)"` — each `none` when the element is absent. -/
structure DetailPage where
  titleTag : Option String
  commentTag : Option String
  abstractTag : Option String
  htmlExpLink : Option String
deriving DecidableEq

/-- Model of one `<section>` container of the HTML-experimental full-text
page: its `id` attribute (if any), the text of its `h2` heading after the
decorative `span` has been decomposed away (if a heading exists), and the
texts of its `<p>` descendants in document order. -/
structure SectionTag where
  id : Option String
  h2Text : Option String
  paragraphs : List String
deriving DecidableEq

/-- The `{"title": ..., "content": ...}` value stored per section id. -/
structure SectionContent where
  title : String
  content : String
deriving DecidableEq

/-- The `ArxivPaper` dataclass. `full_content` is an insertion-ordered mapping
from section identifiers, mirroring a Python dict. -/
structure ArxivPaper where
  url : String
  title : String
  comment : String
  abstract : Option String := none
  full_content : Option (List (String × SectionContent)) := none
deriving DecidableEq

/-- Model of one `<dt>` element of a listing page: the `href` of its anchor
with accessible label `"Abstract"`, or `none` when `_extract_paper_url` would
fail to locate it. -/
structure DtTag where
  abstractHref : Option String
deriving DecidableEq

/-- Model of a fetched listing page: its `<dt>` elements and its `<dd>`
elements. The crawler reads nothing from a `<dd>` beyond its existence, so a
`<dd>` is represented by `Unit`. -/
structure ListingSoup where
  dt_tags : List DtTag
  dd_tags : List Unit
deriving DecidableEq

/-- The network oracle: for every URL and zero-based trial index, the outcome
of that GET attempt, separately for abstract pages, HTML-experimental
full-text pages, and listing pages. -/
structure Net where
  fetchDetail : String → Nat → Attempt DetailPage
  fetchFull : String → Nat → Attempt (List SectionTag)
  fetchListing : String → Nat → Attempt ListingSoup

/-- `ArxivPaperCrawler._extract_title`: `soup.find("h1", class_="title")`
returns `None` when the element is absent, so `.text` raises an
`AttributeError` which the method logs and re-raises; otherwise the text is
stripped, the literal `"Title:"` is removed and the result stripped again. -/
def extract_title (soup : DetailPage) : Except CrawlError String :=
  match soup.titleTag with
  | none => .error .missingTitle
  | some t => .ok (pyStrip (pyReplace (pyStrip t) "Title:" ""))

/-- `ArxivPaperCrawler._extract_comment`: the comment cell is optional;
absence yields the empty string, never an error. -/
def extract_comment (soup : DetailPage) : String :=
  match soup.commentTag with
  | none => ""
  | some c => pyStrip c

/-- `ArxivPaperCrawler.get_paper_abstract`: `soup.find("blockquote",
class_="abstract")` returns `None` when absent, so `.text` raises an
`AttributeError`; otherwise the text is stripped, the literal `"Abstract: "`
removed and newlines replaced by spaces. -/
def get_paper_abstract (soup : DetailPage) : Except CrawlError String :=
  match soup.abstractTag with
  | none => .error .missingAbstract
  | some a => .ok (pyReplace (pyReplace (pyStrip a) "Abstract: " "") "\n" " ")

/-- `ArxivPaperCrawler.get_html_experimental_link`: the anchor's `href` when
the link exists, the sentinel string `"Link not found"` otherwise. -/
def get_html_experimental_link (soup : DetailPage) : String :=
  match soup.htmlExpLink with
  | some href => href
  | none => "Link not found"

/-- Python-dict insertion: an existing binding for the key is overwritten in
place, a new key is appended at the end. -/
def dictInsert (dict : List (String × SectionContent)) (key : String)
    (val : SectionContent) : List (String × SectionContent) :=
  if dict.any (fun p => p.1 = key) then
    dict.map (fun p => if p.1 = key then (key, val) else p)
  else dict ++ [(key, val)]

/-- Body of the section loop of `ArxivPaperCrawler.get_paper_full_content`:
a section without an `id` contributes nothing; a section with an `id`
contributes one entry whose title is the stripped heading text (or the
sentinel `"No title found"` when the section has no heading) and whose
content is the stripped paragraph texts joined by newlines. -/
def add_section (dict : List (String × SectionContent)) (sec : SectionTag) :
    List (String × SectionContent) :=
  match sec.id with
  | none => dict
  | some sid =>
    let sectionTitle :=
      match sec.h2Text with
      | some t => pyStrip t
      | none => "No title found"
    let sectionContent := pyJoin "\n" (sec.paragraphs.map pyStrip)
    dictInsert dict sid ⟨sectionTitle, sectionContent⟩

/-- Parsing loop of `ArxivPaperCrawler.get_paper_full_content` over all
`<section>` containers of the fetched page, starting from an empty dict. -/
def sections_to_dict (sections : List SectionTag) : List (String × SectionContent) :=
  sections.foldl add_section []

/-- `ArxivPaperCrawler.get_paper_full_content`: fetch the HTML-experimental
page and partition it into identified sections. -/
def get_paper_full_content (net : Net) (max_retries retry_delay : Nat) (url : String) :
    Except CrawlError (List (String × SectionContent)) :=
  match (make_request (net.fetchFull url) max_retries retry_delay).1 with
  | .error e => .error e
  | .ok sections => .ok (sections_to_dict sections)

/-- `ArxivPaperCrawler.get_paper_from_url`: normalize the URL, fetch the
abstract page, extract title (fatal when missing), comment (optional),
abstract (fatal when missing); then, when an HTML-experimental link is
present, try to fetch the full content, swallowing any failure. -/
def get_paper_from_url (net : Net) (max_retries retry_delay : Nat) (url0 : String) :
    Except CrawlError ArxivPaper :=
  let url := normalize_url url0
  match (make_request (net.fetchDetail url) max_retries retry_delay).1 with
  | .error e => .error e
  | .ok soup =>
    match extract_title soup with
    | .error e => .error e
    | .ok title =>
      let comment := extract_comment soup
      match get_paper_abstract soup with
      | .error e => .error e
      | .ok abstractText =>
        let html_link := get_html_experimental_link soup
        let full_content :=
          if html_link ≠ "Link not found" then
            match get_paper_full_content net max_retries retry_delay html_link with
            | .ok dict => some dict
            | .error _ => none
          else none
        .ok { url := url, title := title, comment := comment,
              abstract := some abstractText, full_content := full_content }

/-- `ArxivListCrawler._extract_paper_url`: prepend the site root to the
anchor's `href`; when the anchor is missing the error is logged and `None`
returned. -/
def extract_paper_url (dt : DtTag) : Option String :=
  match dt.abstractHref with
  | some urlPath => some ("https://arxiv.org" ++ urlPath)
  | none => none

/-- One iteration of the `get_paper_list` loop: extract the entry's URL
(skipping the entry when it is missing), crawl it, and drop it when the crawl
raises. -/
def crawl_one (net : Net) (max_retries retry_delay : Nat) (dt : DtTag) : Option ArxivPaper :=
  match extract_paper_url dt with
  | none => none
  | some paper_url =>
    match get_paper_from_url net max_retries retry_delay paper_url with
    | .ok paper => some paper
    | .error _ => none

/-- The `for dt_tag, dd_tag in zip(dt_tags, dd_tags)` loop of
`get_paper_list`: successfully crawled papers are appended in order; the
second component counts loop iterations (entries attempted). -/
def crawl_entries (net : Net) (max_retries retry_delay : Nat) :
    List (DtTag × Unit) → List ArxivPaper × Nat
  | [] => ([], 0)
  | (dt, _) :: rest =>
    let r := crawl_entries net max_retries retry_delay rest
    match crawl_one net max_retries retry_delay dt with
    | some paper => (paper :: r.1, r.2 + 1)
    | none => (r.1, r.2 + 1)

/-- The listing URL built by `get_paper_list`. -/
def list_url (field : String) (max_nb_crawl : Nat) : String :=
  "https://arxiv.org/list/" ++ field ++ "/pastweek?skip=0&show=" ++ toString max_nb_crawl

/-- The `total_papers = len(dt_tags)` count that `get_paper_list` logs as the
number of papers found. -/
def total_papers (soup : ListingSoup) : Nat := soup.dt_tags.length

/-- `ArxivListCrawler.get_paper_list`: fetch the listing page (a fetch
failure here propagates), pair `<dt>` with `<dd>` elements positionally, and
crawl each pair, isolating per-entry failures. -/
def get_paper_list (net : Net) (max_retries retry_delay max_nb_crawl : Nat) (field : String) :
    Except CrawlError (List ArxivPaper) :=
  match (make_request (net.fetchListing (list_url field max_nb_crawl)) max_retries retry_delay).1 with
  | .error e => .error e
  | .ok soup =>
    .ok (crawl_entries net max_retries retry_delay (soup.dt_tags.zip soup.dd_tags)).1

/-- C4: on a fetched detail page lacking a title element,
`get_paper_from_url` fails with the missing-required-field error and never
returns a (partial) record. -/
theorem get_paper_missing_title_fatal (net : Net) (m d : Nat) (url : String)
    (soup : DetailPage)
    (hfetch : (make_request (net.fetchDetail (normalize_url url)) m d).1 = .ok soup)
    (htitle : soup.titleTag = none) :
    get_paper_from_url net m d url = .error .missingTitle := by
  simp only [get_paper_from_url, hfetch, extract_title, htitle]

/-- A detail page with no title element, used as a concrete fixture. -/
def pageNoTitle : DetailPage := ⟨none, none, some "Abstract: a", none⟩

/-- A network oracle that always serves `pageNoTitle` as the detail page. -/
def netNoTitle : Net :=
  ⟨fun _ _ => .success pageNoTitle, fun _ _ => .connError, fun _ _ => .connError⟩

/-- Witness for C4 at a concrete page with no title element. -/
theorem get_paper_missing_title_fatal_witness :
    (make_request (netNoTitle.fetchDetail (normalize_url "https://arxiv.org/abs/1")) 3 15).1 =
        .ok pageNoTitle ∧
      get_paper_from_url netNoTitle 3 15 "https://arxiv.org/abs/1" =
        .error .missingTitle :=
  ⟨rfl, get_paper_missing_title_fatal netNoTitle 3 15 "https://arxiv.org/abs/1"
    pageNoTitle rfl rfl⟩

/-- C7: an abstract block whose text is the literal `"Abstract: "` prefix
followed by `"Line1\nLine2"` parses to `"Line1 Line2"`: the prefix is removed
and the internal newline collapsed to a space. -/
theorem get_paper_abstract_newlines (soup : DetailPage)
    (h : soup.abstractTag = some "Abstract: Line1\nLine2") :
    get_paper_abstract soup = .ok "Line1 Line2" := by
  simp only [get_paper_abstract, h]
  decide

/-- Witness for C7 at a concrete page carrying the newline-bearing abstract. -/
theorem get_paper_abstract_newlines_witness :
    get_paper_abstract ⟨none, none, some "Abstract: Line1\nLine2", none⟩ =
      .ok "Line1 Line2" :=
  get_paper_abstract_newlines ⟨none, none, some "Abstract: Line1\nLine2", none⟩ rfl

/-- C8: on a fetched detail page whose comment cell is absent (title and
abstract present, so extraction completes), `get_paper_from_url` returns a
record with an empty comment rather than raising. -/
theorem get_paper_missing_comment_empty (net : Net) (m d : Nat) (url : String)
    (soup : DetailPage) (t a : String)
    (hfetch : (make_request (net.fetchDetail (normalize_url url)) m d).1 = .ok soup)
    (ht : soup.titleTag = some t)
    (ha : soup.abstractTag = some a)
    (hc : soup.commentTag = none) :
    ∃ p, get_paper_from_url net m d url = .ok p ∧ p.comment = "" := by
  simp only [get_paper_from_url, hfetch, extract_title, ht, get_paper_abstract, ha]
  refine ⟨_, rfl, ?_⟩
  simp [extract_comment, hc]

/-- A detail page with title and abstract but no comment cell. -/
def pageNoComment : DetailPage := ⟨some "Title:A", none, some "Abstract: a", none⟩

/-- A network oracle that always serves `pageNoComment` as the detail page. -/
def netNoComment : Net :=
  ⟨fun _ _ => .success pageNoComment, fun _ _ => .connError, fun _ _ => .connError⟩

/-- Witness for C8 at a concrete page with no comment cell. -/
theorem get_paper_missing_comment_empty_witness :
    (make_request (netNoComment.fetchDetail (normalize_url "https://arxiv.org/abs/1")) 3 15).1 =
        .ok pageNoComment ∧
      ∃ p, get_paper_from_url netNoComment 3 15 "https://arxiv.org/abs/1" = .ok p ∧
        p.comment = "" :=
  ⟨rfl, get_paper_missing_comment_empty netNoComment 3 15 "https://arxiv.org/abs/1"
    pageNoComment "Title:A" "Abstract: a" rfl rfl rfl rfl⟩

/-- C9: on a fetched detail page that has a title element but no abstract
block, `get_paper_from_url` raises (the uncaught attribute error from
`get_paper_abstract`) and returns no record: abstract absence is fatal to the
single-paper extraction. -/
theorem get_paper_missing_abstract_fatal (net : Net) (m d : Nat) (url : String)
    (soup : DetailPage) (t : String)
    (hfetch : (make_request (net.fetchDetail (normalize_url url)) m d).1 = .ok soup)
    (ht : soup.titleTag = some t)
    (ha : soup.abstractTag = none) :
    get_paper_from_url net m d url = .error .missingAbstract := by
  simp only [get_paper_from_url, hfetch, extract_title, ht, get_paper_abstract, ha]

/-- A detail page with a title element but no abstract block. -/
def pageNoAbstract : DetailPage := ⟨some "Title:A", none, none, none⟩

/-- A network oracle that always serves `pageNoAbstract` as the detail page. -/
def netNoAbstract : Net :=
  ⟨fun _ _ => .success pageNoAbstract, fun _ _ => .connError, fun _ _ => .connError⟩

/-- Witness for C9 at a concrete page with a title but no abstract block. -/
theorem get_paper_missing_abstract_fatal_witness :
    (make_request (netNoAbstract.fetchDetail (normalize_url "https://arxiv.org/abs/1")) 3 15).1 =
        .ok pageNoAbstract ∧
      get_paper_from_url netNoAbstract 3 15 "https://arxiv.org/abs/1" =
        .error .missingAbstract :=
  ⟨rfl, get_paper_missing_abstract_fatal netNoAbstract 3 15 "https://arxiv.org/abs/1"
    pageNoAbstract "Title:A" rfl rfl rfl⟩

/-- A section without an identifier contributes nothing to the dict. -/
theorem add_section_no_id (dict : List (String × SectionContent)) (sec : SectionTag)
    (h : sec.id = none) : add_section dict sec = dict := by
  simp [add_section, h]

/-- A full-text page with zero identified sections parses to the empty dict. -/
theorem sections_to_dict_eq_nil (sections : List SectionTag)
    (h : ∀ sec ∈ sections, sec.id = none) : sections_to_dict sections = [] := by
  have haux : ∀ (l : List SectionTag) (acc : List (String × SectionContent)),
      (∀ sec ∈ l, sec.id = none) → l.foldl add_section acc = acc := by
    intro l
    induction l with
    | nil => intro acc _; rfl
    | cons sec rest ih =>
      intro acc hl
      rw [List.foldl_cons, add_section_no_id acc sec (hl sec (by simp))]
      exact ih acc (fun s hs => hl s (by simp [hs]))
  exact haux sections [] h

/-- C5 (amended): with title and abstract present, a detail page with no
HTML-experimental link yields `full_content = none`; a page whose
HTML-experimental link's `href` differs from the sentinel string
`"Link not found"` and points to a page with zero identified sections yields
`full_content = some []`; and the two outcomes are distinct. -/
theorem get_paper_full_content_absent_vs_empty (net : Net) (m d : Nat) (url : String)
    (soup : DetailPage) (t a : String)
    (hfetch : (make_request (net.fetchDetail (normalize_url url)) m d).1 = .ok soup)
    (ht : soup.titleTag = some t)
    (ha : soup.abstractTag = some a) :
    (soup.htmlExpLink = none →
        ∃ p, get_paper_from_url net m d url = .ok p ∧ p.full_content = none) ∧
      (∀ link sections, soup.htmlExpLink = some link → link ≠ "Link not found" →
        (make_request (net.fetchFull link) m d).1 = .ok sections →
        (∀ sec ∈ sections, sec.id = none) →
        ∃ p, get_paper_from_url net m d url = .ok p ∧ p.full_content = some []) ∧
      (none : Option (List (String × SectionContent))) ≠ some [] := by
  refine ⟨?_, ?_, by simp⟩
  · intro hlink
    simp only [get_paper_from_url, hfetch, extract_title, ht, get_paper_abstract, ha,
      get_html_experimental_link, hlink]
    refine ⟨_, rfl, ?_⟩
    simp
  · intro link sections hlink hne hfull hids
    simp only [get_paper_from_url, hfetch, extract_title, ht, get_paper_abstract, ha,
      get_html_experimental_link, hlink, get_paper_full_content, hfull]
    refine ⟨_, rfl, ?_⟩
    simp [hne, sections_to_dict_eq_nil sections hids]

/-- A detail page whose HTML-experimental anchor's `href` is literally the
sentinel string `"Link not found"`. -/
def pageSentinelLink : DetailPage :=
  ⟨some "Title:A", none, some "Abstract: a", some "Link not found"⟩

/-- A network oracle serving `pageSentinelLink` as the detail page and an
empty (zero-section) full-text page for every full-text URL. -/
def netSentinelLink : Net :=
  ⟨fun _ _ => .success pageSentinelLink, fun _ _ => .success [], fun _ _ => .connError⟩

/-- Counterexample to C5 as stated: this detail page has an
"HTML experimental" link, the linked page fetches successfully and contains
zero identified sections, yet the returned record's `full_content` is `none`,
not `some []` — because the `href` collides with the sentinel string the code
compares against. -/
theorem get_paper_full_content_sentinel_counterexample :
    pageSentinelLink.htmlExpLink = some "Link not found" ∧
      (make_request (netSentinelLink.fetchFull "Link not found") 3 15).1 = .ok [] ∧
      get_paper_from_url netSentinelLink 3 15 "https://arxiv.org/abs/1" =
        .ok ⟨"https://arxiv.org/abs/1", "A", "", some "a", none⟩ ∧
      (none : Option (List (String × SectionContent))) ≠ some [] :=
  ⟨rfl, rfl, by decide, by simp⟩

/-- A detail page whose HTML-experimental link is an ordinary URL. -/
def pageRealLink : DetailPage :=
  ⟨some "Title:A", none, some "Abstract: a", some "https://arxiv.org/html/1v1"⟩

/-- A network oracle serving `pageRealLink` as the detail page and an empty
(zero-section) full-text page for every full-text URL. -/
def netRealLink : Net :=
  ⟨fun _ _ => .success pageRealLink, fun _ _ => .success [], fun _ _ => .connError⟩

/-- Witness for the amended C5 at a concrete page whose link points to a
zero-section full-text page. -/
theorem get_paper_full_content_absent_vs_empty_witness :
    ∃ p, get_paper_from_url netRealLink 3 15 "https://arxiv.org/abs/1" = .ok p ∧
      p.full_content = some [] := by
  have h := (get_paper_full_content_absent_vs_empty netRealLink 3 15
    "https://arxiv.org/abs/1" pageRealLink "Title:A" "Abstract: a" rfl rfl rfl).2.1
  exact h "https://arxiv.org/html/1v1" [] rfl (by decide) rfl (by simp)

/-- The crawl loop keeps, in order, exactly the entries whose crawl
succeeds, and iterates once per zipped pair. -/
theorem crawl_entries_spec (net : Net) (m d : Nat) :
    ∀ pairs : List (DtTag × Unit),
      crawl_entries net m d pairs =
        (pairs.filterMap (fun pr => crawl_one net m d pr.1), pairs.length) := by
  intro pairs
  induction pairs with
  | nil => rfl
  | cons hd tl ih =>
    obtain ⟨dt, u⟩ := hd
    simp only [crawl_entries, ih, List.filterMap_cons, List.length_cons]
    cases crawl_one net m d dt <;> simp

/-- A `filterMap` whose function succeeds elementwise as prescribed by a
`Forall₂` relation returns exactly the prescribed outputs. -/
theorem filterMap_eq_of_forall₂ {α β : Type} (f : α → Option β) :
    ∀ {l₁ : List α} {l₂ : List β},
      List.Forall₂ (fun x y => f x = some y) l₁ l₂ → l₁.filterMap f = l₂ := by
  intro l₁ l₂ h
  induction h with
  | nil => rfl
  | cons hfp _ ih => simp [List.filterMap_cons, hfp, ih]

/-- C1: when the listing fetch succeeds with equally many `<dt>` and `<dd>`
elements and exactly one entry's detail crawl fails while every other
entry's crawl succeeds, `get_paper_list` returns (without raising) exactly
the successful records, in listing order, one fewer than the number of
entries. -/
theorem get_paper_list_single_failure
    (net : Net) (m d k : Nat) (field : String) (soup : ListingSoup)
    (dtsBefore dtsAfter : List DtTag) (bad : DtTag)
    (oksBefore oksAfter : List ArxivPaper) (badUrl : String) (err : CrawlError)
    (hfetch : (make_request (net.fetchListing (list_url field k)) m d).1 = .ok soup)
    (hdts : soup.dt_tags = dtsBefore ++ bad :: dtsAfter)
    (hlen : soup.dd_tags.length = soup.dt_tags.length)
    (hbadUrl : extract_paper_url bad = some badUrl)
    (hbadFail : get_paper_from_url net m d badUrl = .error err)
    (hbefore : List.Forall₂ (fun dt p => crawl_one net m d dt = some p) dtsBefore oksBefore)
    (hafter : List.Forall₂ (fun dt p => crawl_one net m d dt = some p) dtsAfter oksAfter) :
    get_paper_list net m d k field = .ok (oksBefore ++ oksAfter) ∧
      (oksBefore ++ oksAfter).length + 1 = total_papers soup := by
  have hbad : crawl_one net m d bad = none := by
    simp [crawl_one, hbadUrl, hbadFail]
  have hfm : soup.dt_tags.filterMap (crawl_one net m d) = oksBefore ++ oksAfter := by
    rw [hdts, List.filterMap_append, List.filterMap_cons, hbad]
    rw [filterMap_eq_of_forall₂ _ hbefore, filterMap_eq_of_forall₂ _ hafter]
  constructor
  · simp only [get_paper_list, hfetch]
    rw [crawl_entries_spec]
    have hmap : (soup.dt_tags.zip soup.dd_tags).map Prod.fst = soup.dt_tags :=
      List.map_fst_zip _ _ (le_of_eq hlen.symm)
    have hzip : (soup.dt_tags.zip soup.dd_tags).filterMap
        (fun pr => crawl_one net m d pr.1) = soup.dt_tags.filterMap (crawl_one net m d) := by
      conv_rhs => rw [← hmap]
      rw [List.filterMap_map]
      rfl
    rw [hzip, hfm]
  · have hl1 := hbefore.length_eq
    have hl2 := hafter.length_eq
    rw [total_papers, hdts]
    simp only [List.length_append, List.length_cons]
    omega

/-- Three listing entries: the middle one's detail page is unreachable. -/
def dtFirst : DtTag := ⟨some "/abs/1"⟩

/-- The listing entry whose detail page is unreachable. -/
def dtBad : DtTag := ⟨some "/abs/2"⟩

/-- The third listing entry, with a reachable detail page. -/
def dtThird : DtTag := ⟨some "/abs/3"⟩

/-- Detail page served for the first entry. -/
def pageA : DetailPage := ⟨some "Title:A", none, some "Abstract: a", none⟩

/-- Detail page served for the third entry. -/
def pageC : DetailPage := ⟨some "Title:C", none, some "Abstract: c", none⟩

/-- A listing page with three `<dt>`/`<dd>` pairs. -/
def listingThree : ListingSoup := ⟨[dtFirst, dtBad, dtThird], [(), (), ()]⟩

/-- A network oracle: the listing fetch succeeds, the second entry's detail
page raises a connection error on every attempt, the other two succeed. -/
def netOneFailure : Net :=
  ⟨fun u _ =>
      if u = "https://arxiv.org/abs/2" then .connError
      else if u = "https://arxiv.org/abs/1" then .success pageA
      else .success pageC,
    fun _ _ => .connError,
    fun _ _ => .success listingThree⟩

/-- The record crawled from the first entry. -/
def paperA : ArxivPaper := ⟨"https://arxiv.org/abs/1", "A", "", some "a", none⟩

/-- The record crawled from the third entry. -/
def paperC : ArxivPaper := ⟨"https://arxiv.org/abs/3", "C", "", some "c", none⟩

/-- Witness for C1: of three listing entries the middle one fails, and the
field crawl returns the two surviving records in listing order. -/
theorem get_paper_list_single_failure_witness :
    get_paper_list netOneFailure 3 15 100 "cs.CL" = .ok ([paperA] ++ [paperC]) ∧
      ([paperA] ++ [paperC]).length + 1 = total_papers listingThree :=
  get_paper_list_single_failure netOneFailure 3 15 100 "cs.CL" listingThree
    [dtFirst] [dtThird] dtBad [paperA] [paperC] "https://arxiv.org/abs/2" .connErr
    rfl rfl rfl rfl (by decide)
    (List.Forall₂.cons (by decide) List.Forall₂.nil)
    (List.Forall₂.cons (by decide) List.Forall₂.nil)

/-- C10: `get_paper_list` crawls exactly the positional `<dt>`/`<dd>` pairs:
the loop runs `min #dt #dd` iterations (surplus elements of the longer list
are ignored), while the logged total counts all `<dt>` elements. -/
theorem get_paper_list_zip_pairing (net : Net) (m d k : Nat) (field : String)
    (soup : ListingSoup)
    (hfetch : (make_request (net.fetchListing (list_url field k)) m d).1 = .ok soup) :
    get_paper_list net m d k field =
        .ok (crawl_entries net m d (soup.dt_tags.zip soup.dd_tags)).1 ∧
      (crawl_entries net m d (soup.dt_tags.zip soup.dd_tags)).2 =
        min soup.dt_tags.length soup.dd_tags.length ∧
      total_papers soup = soup.dt_tags.length := by
  refine ⟨?_, ?_, rfl⟩
  · simp only [get_paper_list, hfetch]
  · rw [crawl_entries_spec]
    simp [List.length_zip]

/-- A listing page with two `<dt>` elements but a single `<dd>` element. -/
def listingSurplus : ListingSoup := ⟨[⟨none⟩, ⟨none⟩], [()]⟩

/-- A network oracle serving `listingSurplus` as the listing page. -/
def netSurplus : Net :=
  ⟨fun _ _ => .connError, fun _ _ => .connError, fun _ _ => .success listingSurplus⟩

/-- Witness for C10: with two `<dt>` and one `<dd>`, only one pair is
attempted while the logged total is two. -/
theorem get_paper_list_zip_pairing_witness :
    get_paper_list netSurplus 3 15 100 "cs.CL" =
        .ok (crawl_entries netSurplus 3 15
          (listingSurplus.dt_tags.zip listingSurplus.dd_tags)).1 ∧
      (crawl_entries netSurplus 3 15
          (listingSurplus.dt_tags.zip listingSurplus.dd_tags)).2 =
        min listingSurplus.dt_tags.length listingSurplus.dd_tags.length ∧
      total_papers listingSurplus = listingSurplus.dt_tags.length :=
  get_paper_list_zip_pairing netSurplus 3 15 100 "cs.CL" listingSurplus rfl

end OpenImpact
